import Mathlib

/-!
Shallow embedding of the Sign-Bridge gesture pipeline
(GeometricAnalyzer, OnlineLearner, TemporalSmoother, ConflictResolver,
GestureEngine reset paths) together with theorems settling the frozen
specification claims.

The OnlineLearner and TemporalSmoother perform exact arithmetic on scores
and confidences, embedded over the rationals.  The geometric components use
square roots and inverse cosines and are embedded over the reals.
-/

namespace SignBridge

/-! ## Section 3 of the source — OnlineLearner (session-scoped confidence adapter) -/

/-- Per-sign statistics: exponential moving average and confirmed count. -/
structure Stat where
  ema : ℚ
  count : ℕ
  deriving DecidableEq, Repr

/-- The learner state: mapping from sign name to its statistics,
kept as an insertion-ordered association list. -/
def Learner := List (String × Stat)

instance : DecidableEq Learner := by
  unfold Learner
  infer_instance

/-- smoothing factor EMA_ALPHA = 0.12 -/
def EMA_ALPHA : ℚ := 0.12

/-- maximum score adjustment MAX_OFFSET = 2.5 -/
def MAX_OFFSET : ℚ := 2.5

/-- samples needed before the offset activates, MIN_CONFIRM = 8 -/
def MIN_CONFIRM : ℕ := 8

/-- ideal fingerpose score TARGET_SCORE = 8.5 -/
def TARGET_SCORE : ℚ := 8.5

/-- Lookup of stats[name]. -/
def getStat : Learner → String → Option Stat
  | [], _ => none
  | (k, v) :: rest, nm => if k = nm then some v else getStat rest nm

/-- Write stats[name] = v (replace in place, or append if absent). -/
def setStat : Learner → String → Stat → Learner
  | [], nm, v => [(nm, v)]
  | (k, w) :: rest, nm, v =>
      if k = nm then (nm, v) :: rest else (k, w) :: setStat rest nm v

/-- OnlineLearner.observe: initialise stats[name] to { ema: rawScore, count: 0 }
when absent, then increment the count and update the EMA by
`ema = EMA_ALPHA * rawScore + (1 - EMA_ALPHA) * ema`. -/
def observe (st : Learner) (nm : String) (rawScore : ℚ) : Learner :=
  let s := (getStat st nm).getD { ema := rawScore, count := 0 }
  setStat st nm { ema := EMA_ALPHA * rawScore + (1 - EMA_ALPHA) * s.ema, count := s.count + 1 }

/-- OnlineLearner.adjust: return the raw score unchanged while the sign has
fewer than MIN_CONFIRM observations, otherwise add the clamped offset
`max (-MAX_OFFSET) (min MAX_OFFSET (TARGET_SCORE - ema))`. -/
def adjust (st : Learner) (nm : String) (rawScore : ℚ) : ℚ :=
  match getStat st nm with
  | none => rawScore
  | some s =>
      if s.count < MIN_CONFIRM then rawScore
      else rawScore + max (-MAX_OFFSET) (min MAX_OFFSET (TARGET_SCORE - s.ema))

/-- OnlineLearner.reset: delete every key of the statistics table. -/
def resetLearner (_ : Learner) : Learner := []

/-! ## Section 4 of the source — TemporalSmoother (sliding window majority vote) -/

/-- One history entry { name, confidence }. -/
structure SEntry where
  name : String
  confidence : ℚ
  deriving DecidableEq, Repr

/-- WINDOW = 9 frames to look back. -/
def WINDOW : ℕ := 9

/-- MIN_PCT = 0.48: at least 48% of the weighted frames must agree. -/
def MIN_PCT : ℚ := 0.48

/-- TemporalSmoother.push: append the entry; shift the oldest out when the
window exceeds WINDOW entries. -/
def push (h : List SEntry) (nm : String) (conf : ℚ) : List SEntry :=
  let h2 := h ++ [{ name := nm, confidence := conf }]
  if WINDOW < h2.length then h2.tail else h2

/-- Iterated pushes of entries of a single name (one per confidence). -/
def pushMany : List SEntry → String → List ℚ → List SEntry
  | h, _, [] => h
  | h, nm, c :: cs => pushMany (push h nm c) nm cs

/-- Weighted vote accumulation: entry at 0-based position i gets weight i+1.
The auxiliary index argument carries the position offset. -/
def votesAux (nm : String) : List SEntry → ℕ → ℚ
  | [], _ => 0
  | e :: t, i => (if e.name = nm then ((i : ℚ) + 1) else 0) + votesAux nm t (i + 1)

/-- votes[name]: recency-weighted vote sum of a name over the window. -/
def votesOf (h : List SEntry) (nm : String) : ℚ := votesAux nm h 0

/-- Weighted confidence accumulation (confidence × weight). -/
def confAccAux (nm : String) : List SEntry → ℕ → ℚ
  | [], _ => 0
  | e :: t, i => (if e.name = nm then e.confidence * ((i : ℚ) + 1) else 0) + confAccAux nm t (i + 1)

/-- confAcc[name]: weighted confidence sum of a name over the window. -/
def confAccOf (h : List SEntry) (nm : String) : ℚ := confAccAux nm h 0

/-- Keys of the votes map in first-insertion order (Object.entries order). -/
def namesAux : List SEntry → List String → List String
  | [], acc => acc
  | e :: t, acc => namesAux t (if e.name ∈ acc then acc else acc ++ [e.name])

/-- Distinct names of the window, in first-occurrence order. -/
def namesOf (h : List SEntry) : List String := namesAux h []

/-- Total possible weight: the triangular number n·(n+1)/2. -/
def totalWOf (h : List SEntry) : ℚ := ((h.length : ℚ) * ((h.length : ℚ) + 1)) / 2

/-- The selection loop of best(): keep the name with the largest vote sum
among those whose vote fraction reaches MIN_PCT. -/
def pickTop (h : List SEntry) (tw : ℚ) : List String → Option String → ℚ → Option String
  | [], top, _ => top
  | nm :: rest, top, topVote =>
      if MIN_PCT ≤ votesOf h nm / tw ∧ topVote < votesOf h nm then
        pickTop h tw rest (some nm) (votesOf h nm)
      else
        pickTop h tw rest top topVote

/-- TemporalSmoother.best: none for fewer than 2 entries, else the winning
name with its vote-weighted average confidence capped at 1. -/
def best (h : List SEntry) : Option SEntry :=
  if h.length < 2 then none
  else
    match pickTop h (totalWOf h) (namesOf h) none 0 with
    | none => none
    | some nm => some { name := nm, confidence := min 1 (confAccOf h nm / votesOf h nm) }

/-- TemporalSmoother.reset: empty the window. -/
def resetSmoother (_ : List SEntry) : List SEntry := []

/-! ## Section 6 of the source — GestureEngine state and reset -/

/-- The engine-owned mutable state: the smoother window and the learner map. -/
structure EngineState where
  smoother : List SEntry
  learner : Learner

/-- GestureEngine.reset: clears the TemporalSmoother only (hand-loss path);
the OnlineLearner is deliberately untouched. -/
def engineReset (e : EngineState) : EngineState :=
  { e with smoother := resetSmoother e.smoother }

/-- GestureEngine.resetSession: clears both the smoother and the learner. -/
def engineResetSession (e : EngineState) : EngineState :=
  { smoother := resetSmoother e.smoother, learner := resetLearner e.learner }

/-! ## Section 2 of the source — GeometricAnalyzer (over the reals) -/

/-- One MediaPipe landmark {x, y, z}. -/
structure Pt where
  x : ℝ
  y : ℝ
  z : ℝ

/-- Landmark access lm[i] (out-of-range reads default to the origin; the
source only indexes 0–20 on hands of length at least 21). -/
def lmGet (lm : List Pt) (i : ℕ) : Pt := lm.getD i ⟨0, 0, 0⟩

/-- Euclidean distance between two landmarks. -/
noncomputable def dist (a b : Pt) : ℝ :=
  Real.sqrt ((a.x - b.x) ^ 2 + (a.y - b.y) ^ 2 + (a.z - b.z) ^ 2)

/-- Normalised hand size = wrist → middle-MCP distance, floored at 0.01. -/
noncomputable def handScale (lm : List Pt) : ℝ :=
  max 0.01 (dist (lmGet lm 0) (lmGet lm 9))

/-- Is a finger extended?  Tip-to-wrist distance (scale-normalised) must
exceed MCP-to-wrist distance times the per-finger threshold. -/
noncomputable def isExtended (lm : List Pt) (tip mcp : ℕ) (threshold : ℝ) : Bool :=
  decide (dist (lmGet lm 0) (lmGet lm tip) / handScale lm
    > dist (lmGet lm 0) (lmGet lm mcp) / handScale lm * threshold)

/-- Angle in degrees at vertex b between the rays b→a and b→c; 0 when the
product of magnitudes is degenerate (below 1e-8). -/
noncomputable def angleDeg (a b c : Pt) : ℝ :=
  let abx := a.x - b.x
  let aby := a.y - b.y
  let abz := a.z - b.z
  let cbx := c.x - b.x
  let cby := c.y - b.y
  let cbz := c.z - b.z
  let dot := abx * cbx + aby * cby + abz * cbz
  let mag := Real.sqrt (abx ^ 2 + aby ^ 2 + abz ^ 2)
    * Real.sqrt (cbx ^ 2 + cby ^ 2 + cbz ^ 2)
  if mag < 1e-8 then 0
  else Real.arccos (min 1 (max (-1) (dot / mag))) * (180 / Real.pi)

/-- Extension state for all five fingers. -/
structure FingerStates where
  thumb : Bool
  index : Bool
  middle : Bool
  ring : Bool
  pinky : Bool
  deriving DecidableEq, Repr

/-- Per-finger extension flags with the tuned thresholds. -/
noncomputable def fingerStates (lm : List Pt) : FingerStates :=
  { thumb := isExtended lm 4 2 1.30
    index := isExtended lm 8 5 1.60
    middle := isExtended lm 12 9 1.60
    ring := isExtended lm 16 13 1.55
    pinky := isExtended lm 20 17 1.45 }

/-- Thumb tip above index MCP. -/
noncomputable def thumbUp (lm : List Pt) : Bool :=
  decide ((lmGet lm 4).y < (lmGet lm 5).y)

/-- Thumb tip below middle MCP. -/
noncomputable def thumbDown (lm : List Pt) : Bool :=
  decide ((lmGet lm 4).y > (lmGet lm 9).y)

/-- A geometric opinion { name, confidence }. -/
structure GeoRes where
  name : String
  confidence : ℝ

/-- GeometricAnalyzer.classify: the fixed-order decision table over the
finger-extension flags; none when no branch matches (defer to the bank).
Guard: landmark arrays shorter than 21 yield none. -/
noncomputable def classify (lm : List Pt) : Option GeoRes :=
  if lm.length < 21 then none
  else
    let fs := fingerStates lm
    let sc := handScale lm
    let extCount := [fs.thumb, fs.index, fs.middle, fs.ring, fs.pinky].count true
    if fs.thumb && !fs.index && !fs.middle && !fs.ring && !fs.pinky && thumbUp lm then
      some ⟨"THUMBS UP", 0.95⟩
    else if fs.thumb && !fs.index && !fs.middle && !fs.ring && !fs.pinky && thumbDown lm then
      some ⟨"THUMBS DOWN", 0.95⟩
    else if fs.thumb && fs.index && !fs.middle && !fs.ring && !fs.pinky
        && decide (angleDeg (lmGet lm 4) (lmGet lm 2) (lmGet lm 5) > 58) then
      some ⟨"L", 0.90⟩
    else if fs.thumb && fs.index && !fs.middle && !fs.ring && fs.pinky then
      some ⟨"I LOVE YOU", 0.92⟩
    else if fs.thumb && !fs.index && !fs.middle && !fs.ring && fs.pinky then
      some ⟨"Y", 0.88⟩
    else if fs.thumb && !fs.index && !fs.middle && !fs.ring && fs.pinky
        && decide (|(lmGet lm 20).x - (lmGet lm 17).x|
          > |(lmGet lm 20).y - (lmGet lm 17).y| * 1.4) then
      some ⟨"CALL ME", 0.85⟩
    else if extCount == 5 && decide ((lmGet lm 8).y - (lmGet lm 5).y < -0.05)
        && decide (dist (lmGet lm 8) (lmGet lm 20) / sc > 1.2) then
      some ⟨"STOP", 0.85⟩
    else if extCount == 5 && decide ((lmGet lm 8).y - (lmGet lm 5).y < -0.05)
        && decide (dist (lmGet lm 8) (lmGet lm 20) / sc ≤ 1.2) then
      some ⟨"HELLO", 0.80⟩
    else if fs.index && !fs.middle && !fs.ring && !fs.pinky then
      some ⟨"D", if dist (lmGet lm 4) (lmGet lm 12) / sc < 0.6 then 0.84 else 0.72⟩
    else if !fs.thumb && fs.index && fs.middle && fs.ring && !fs.pinky then
      some ⟨"W", 0.86⟩
    else if !fs.thumb && fs.index && fs.middle && !fs.ring && !fs.pinky then
      if dist (lmGet lm 8) (lmGet lm 12) / sc > 0.70 then some ⟨"V", 0.88⟩
      else some ⟨"U", 0.84⟩
    else if extCount == 3 && fs.middle && fs.ring && fs.pinky
        && decide (dist (lmGet lm 4) (lmGet lm 8) / sc < 0.40) then
      some ⟨"OK", 0.86⟩
    else if extCount == 0 && decide ((lmGet lm 4).y - (lmGet lm 3).y < -0.05) then
      some ⟨"EAT", 0.70⟩
    else none

/-- classify on a possibly-absent hand (the JS null guard). -/
noncomputable def classifyOpt (olm : Option (List Pt)) : Option GeoRes :=
  olm.elim none classify

/-! ## Section 5 of the source — ConflictResolver -/

/-- A ranked candidate from the external gesture bank. -/
structure Candidate where
  name : String
  score : ℝ

/-- The resolver's output { name, score }. -/
structure Resolution where
  name : String
  score : ℝ

/-- The per-cluster disambiguation rules of ConflictResolver.resolve, applied
once the two geometric-opinion rules have not fired; keyed on the top
candidate's name. -/
noncomputable def resolveRules (top : Candidate) (lm : List Pt) : Option Resolution :=
  let sc := handScale lm
  if top.name = "A" ∨ top.name = "S" then
    some ⟨if (lmGet lm 4).y > (lmGet lm 6).y then "S" else "A", top.score⟩
  else if top.name = "M" ∨ top.name = "N" ∨ top.name = "S" ∨ top.name = "T" then
    let fs := fingerStates lm
    let allCurled := !fs.index && !fs.middle && !fs.ring && !fs.pinky
    let thumbAcross := decide (|(lmGet lm 4).x - (lmGet lm 9).x| < 0.13)
    if allCurled then
      if decide ((lmGet lm 4).y < (lmGet lm 5).y) && !thumbAcross then
        some ⟨"T", top.score⟩
      else if thumbAcross then
        some ⟨"S", top.score⟩
      else
        let fingersOver := [decide ((lmGet lm 8).y > (lmGet lm 4).y),
          decide ((lmGet lm 12).y > (lmGet lm 4).y),
          decide ((lmGet lm 16).y > (lmGet lm 4).y)].count true
        some ⟨if 3 ≤ fingersOver then "M" else "N", top.score⟩
    else
      some ⟨top.name, top.score⟩
  else if top.name = "U" ∨ top.name = "R" then
    some ⟨if Real.sign ((lmGet lm 8).x - (lmGet lm 5).x)
        ≠ Real.sign ((lmGet lm 12).x - (lmGet lm 9).x) then "R" else "U", top.score⟩
  else if top.name = "V" ∨ top.name = "PEACE" then
    some ⟨if dist (lmGet lm 4) (lmGet lm 0) / sc > 1.18 then "PEACE" else "V", top.score⟩
  else if top.name = "F" ∨ top.name = "OK" then
    some ⟨if dist (lmGet lm 4) (lmGet lm 8) / sc < 0.36 then "OK" else "F", top.score⟩
  else if top.name = "GOOD" ∨ top.name = "THANKS" then
    some ⟨if (lmGet lm 12).x - (lmGet lm 9).x > 0.08 then "THANKS" else "GOOD", top.score⟩
  else if top.name = "BAD" ∨ top.name = "PLEASE" ∨ top.name = "WAIT" then
    if (lmGet lm 12).y - (lmGet lm 9).y > 0.06 then some ⟨"BAD", top.score⟩
    else some ⟨if top.name = "WAIT" then "WAIT" else "PLEASE", top.score⟩
  else if top.name = "C" ∨ top.name = "O" ∨ top.name = "EAT" ∨ top.name = "HOT"
      ∨ top.name = "DRINK" then
    if dist (lmGet lm 8) (lmGet lm 4) / sc < 0.28 then some ⟨"O", top.score⟩
    else if (lmGet lm 12).y - (lmGet lm 9).y < -0.06 then some ⟨"EAT", top.score⟩
    else if (lmGet lm 12).y - (lmGet lm 9).y > 0.08 then some ⟨"HOT", top.score⟩
    else some ⟨"C", top.score⟩
  else if top.name = "CALL ME" ∨ top.name = "Y" then
    some ⟨if |(lmGet lm 20).x - (lmGet lm 17).x|
        > |(lmGet lm 20).y - (lmGet lm 17).y| * 1.3 then "CALL ME" else "Y", top.score⟩
  else if top.name = "SLOW" ∨ top.name = "HELLO" then
    some ⟨if dist (lmGet lm 8) (lmGet lm 20) / sc < 0.9 then "SLOW" else "HELLO", top.score⟩
  else
    some ⟨top.name, top.score⟩

/-- ConflictResolver.resolve: none on an empty candidate list or an
undersized hand; otherwise the agreement-boost rule, then the
geometric-override rule, then the cluster disambiguation rules. -/
noncomputable def resolve (cands : List Candidate) (lm : List Pt) : Option Resolution :=
  if cands.length = 0 then none
  else if lm.length < 21 then none
  else
    let top := cands.headD ⟨"", 0⟩
    (classify lm).elim (resolveRules top lm) fun geo =>
      if geo.name = top.name ∧ geo.confidence > 0.80 then
        some ⟨top.name, min 10 (top.score * 1.12)⟩
      else if geo.confidence > 0.87 ∧ geo.name ≠ top.name then
        some ⟨geo.name, geo.confidence * 10⟩
      else
        resolveRules top lm

/-- resolve on a possibly-absent hand (the JS null guard). -/
noncomputable def resolveOpt (cands : List Candidate) (olm : Option (List Pt)) :
    Option Resolution :=
  olm.elim none (resolve cands)

/-! ## Concrete hands used as witnesses and counterexamples -/

/-- A thumbs-up hand: thumb extended, all other fingers at the wrist,
thumb tip above the index MCP; wrist-to-middle-MCP scale 1. -/
def handTU : List Pt :=
  [⟨0, 0, 0⟩, ⟨0, 0, 0⟩, ⟨0.3, -0.4, 0⟩, ⟨0, 0, 0⟩, ⟨0.6, -0.8, 0⟩,
   ⟨0, 0, 0⟩, ⟨0, 0, 0⟩, ⟨0, 0, 0⟩, ⟨0, 0, 0⟩, ⟨0, -1, 0⟩,
   ⟨0, 0, 0⟩, ⟨0, 0, 0⟩, ⟨0, 0, 0⟩, ⟨0, 0, 0⟩, ⟨0, 0, 0⟩,
   ⟨0, 0, 0⟩, ⟨0, 0, 0⟩, ⟨0, 0, 0⟩, ⟨0, 0, 0⟩, ⟨0, 0, 0⟩,
   ⟨0, 0, 0⟩]

/-- The thumbs-up hand with a 22nd landmark appended. -/
def handTU22 : List Pt := handTU ++ [⟨0, 0, 0⟩]

/-- An all-five-extended hand matching the STOP branch: index up, wide
index-to-pinky spread; scale 1. -/
def handSTOP : List Pt :=
  [⟨0, 0, 0⟩, ⟨0, 0, 0⟩, ⟨-0.3, 0.4, 0⟩, ⟨0, 0, 0⟩, ⟨-0.6, 0.8, 0⟩,
   ⟨0, -1, 0⟩, ⟨0, 0, 0⟩, ⟨0, 0, 0⟩, ⟨0, -3, 0⟩, ⟨0, -1, 0⟩,
   ⟨0, 0, 0⟩, ⟨0, 0, 0⟩, ⟨0, -2, 0⟩, ⟨0, -1, 0⟩, ⟨0, 0, 0⟩,
   ⟨0, 0, 0⟩, ⟨0, -2, 0⟩, ⟨0.3, 0.4, 0⟩, ⟨0, 0, 0⟩, ⟨0, 0, 0⟩,
   ⟨0.6, 0.8, 0⟩]

/-- A thumb+index hand whose thumb-base angle is exactly 90°: the L pose. -/
def handL : List Pt :=
  [⟨0, 0, 0⟩, ⟨0, 0, 0⟩, ⟨0, 0, 0⟩, ⟨0, 0, 0⟩, ⟨-1, 0, 0⟩,
   ⟨0, -1, 0⟩, ⟨0, 0, 0⟩, ⟨0, 0, 0⟩, ⟨0, -2, 0⟩, ⟨0, -1, 0⟩,
   ⟨0, 0, 0⟩, ⟨0, 0, 0⟩, ⟨0, -1, 0⟩, ⟨0, 0, 0⟩, ⟨0, 0, 0⟩,
   ⟨0, 0, 0⟩, ⟨0, 0, 0⟩, ⟨0, 0, 0⟩, ⟨0, 0, 0⟩, ⟨0, 0, 0⟩,
   ⟨0, 0, 0⟩]

/-- A thumb+index hand whose thumb-base angle is exactly 40° (the index MCP
ray uses the cosine and sine of 40°). -/
noncomputable def hand40 : List Pt :=
  [⟨0, 0, 0⟩, ⟨0, 0, 0⟩, ⟨0, 0, 0⟩, ⟨0, 0, 0⟩, ⟨1, 0, 0⟩,
   ⟨Real.cos (2 * Real.pi / 9), -Real.sin (2 * Real.pi / 9), 0⟩, ⟨0, 0, 0⟩, ⟨0, 0, 0⟩, ⟨2, 0, 0⟩, ⟨0, -1, 0⟩,
   ⟨0, 0, 0⟩, ⟨0, 0, 0⟩, ⟨0, -1, 0⟩, ⟨0, 0, 0⟩, ⟨0, 0, 0⟩,
   ⟨0, 0, 0⟩, ⟨0, 0, 0⟩, ⟨0, 0, 0⟩, ⟨0, 0, 0⟩, ⟨0, 0, 0⟩,
   ⟨0, 0, 0⟩]

/-- A thumb+pinky hand with a perfectly horizontal pinky vector. -/
def handYH : List Pt :=
  [⟨0, 0, 0⟩, ⟨0, 0, 0⟩, ⟨0.3, 0.4, 0⟩, ⟨0, 0, 0⟩, ⟨0.6, 0.8, 0⟩,
   ⟨0, 0, 0⟩, ⟨0, 0, 0⟩, ⟨0, 0, 0⟩, ⟨0, 0, 0⟩, ⟨0, -1, 0⟩,
   ⟨0, 0, 0⟩, ⟨0, 0, 0⟩, ⟨0, 0, 0⟩, ⟨0, 0, 0⟩, ⟨0, 0, 0⟩,
   ⟨0, 0, 0⟩, ⟨0, 0, 0⟩, ⟨-0.5, 0, 0⟩, ⟨0, 0, 0⟩, ⟨0, 0, 0⟩,
   ⟨-1.5, 0, 0⟩]

/-- A hand with only the middle finger extended: classify defers (none). -/
def handMID : List Pt :=
  [⟨0, 0, 0⟩, ⟨0, 0, 0⟩, ⟨0, 0, 0⟩, ⟨0, 0, 0⟩, ⟨0, 0, 0⟩,
   ⟨0, 0, 0⟩, ⟨0, 0, 0⟩, ⟨0, 0, 0⟩, ⟨0, 0, 0⟩, ⟨0, -1, 0⟩,
   ⟨0, 0, 0⟩, ⟨0, 0, 0⟩, ⟨0, -2, 0⟩, ⟨0, 0, 0⟩, ⟨0, 0, 0⟩,
   ⟨0, 0, 0⟩, ⟨0, 0, 0⟩, ⟨0, 0, 0⟩, ⟨0, 0, 0⟩, ⟨0, 0, 0⟩,
   ⟨0, 0, 0⟩]

/-! ## Lemmas about the learner map -/

/-- Looking up a key just written returns the written value. -/
theorem getStat_setStat (st : Learner) (nm : String) (v : Stat) :
    getStat (setStat st nm v) nm = some v := by
  induction st with
  | nil => simp [setStat, getStat]
  | cons p rest ih =>
      obtain ⟨k, w⟩ := p
      by_cases hk : k = nm
      · simp [setStat, hk, getStat]
      · simp [setStat, hk, getStat, ih]

/-! ## Lemmas about the smoother -/

theorem votesAux_nonneg (nm : String) (l : List SEntry) (i : ℕ) :
    0 ≤ votesAux nm l i := by
  induction l generalizing i with
  | nil => simp [votesAux]
  | cons e t ih =>
      have h1 : (0 : ℚ) ≤ (if e.name = nm then ((i : ℚ) + 1) else 0) := by
        split <;> positivity
      have h2 := ih (i + 1)
      simp only [votesAux]
      linarith

theorem votesAux_eq_zero (nm : String) (l : List SEntry) (i : ℕ)
    (h : ∀ e ∈ l, e.name ≠ nm) : votesAux nm l i = 0 := by
  induction l generalizing i with
  | nil => simp [votesAux]
  | cons e t ih =>
      have he : e.name ≠ nm := h e (by simp)
      have ht : ∀ x ∈ t, x.name ≠ nm := fun x hx => h x (by simp [hx])
      simp [votesAux, he, ih _ ht]

theorem mem_namesAux_of_acc {x : String} (l : List SEntry) :
    ∀ acc, x ∈ acc → x ∈ namesAux l acc := by
  induction l with
  | nil => intro acc hx; simpa [namesAux] using hx
  | cons e t ih =>
      intro acc hx
      simp only [namesAux]
      apply ih
      split
      · exact hx
      · exact List.mem_append_left _ hx

theorem mem_namesAux_of_mem {e : SEntry} {l : List SEntry} (h : e ∈ l) :
    ∀ acc, e.name ∈ namesAux l acc := by
  induction l with
  | nil => simp at h
  | cons a t ih =>
      intro acc
      rcases List.mem_cons.mp h with rfl | ht
      · simp only [namesAux]
        apply mem_namesAux_of_acc
        split
        · assumption
        · simp
      · exact ih ht _

theorem votesOf_eq_zero_of_not_mem {h : List SEntry} {nm : String}
    (hn : nm ∉ namesOf h) : votesOf h nm = 0 := by
  apply votesAux_eq_zero
  intro e he hne
  exact hn (hne ▸ mem_namesAux_of_mem he [])

/-- Soundness of the selection loop of best(): a returned name is eligible,
its vote sum dominates the running maximum and the vote sum of every
eligible name remaining in the list. -/
theorem pickTop_spec (h : List SEntry) (tw : ℚ) :
    ∀ (l : List String) (top : Option String) (tv : ℚ),
      (∀ t, top = some t → tv = votesOf h t ∧ MIN_PCT ≤ votesOf h t / tw) →
      ∀ res, pickTop h tw l top tv = some res →
        MIN_PCT ≤ votesOf h res / tw
        ∧ tv ≤ votesOf h res
        ∧ (∀ nm ∈ l, MIN_PCT ≤ votesOf h nm / tw → votesOf h nm ≤ votesOf h res) := by
  intro l
  induction l with
  | nil =>
      intro top tv htop res hres
      simp only [pickTop] at hres
      obtain ⟨h1, h2⟩ := htop res hres
      exact ⟨h2, le_of_eq h1, by simp⟩
  | cons nm rest ih =>
      intro top tv htop res hres
      simp only [pickTop] at hres
      split at hres
      · rename_i hcond
        obtain ⟨helig, hlt⟩ := hcond
        obtain ⟨r1, r2, r3⟩ := ih (some nm) (votesOf h nm)
          (by
            intro t ht
            have hnt : nm = t := by injection ht
            subst hnt
            exact ⟨rfl, helig⟩)
          res hres
        refine ⟨r1, le_of_lt (lt_of_lt_of_le hlt r2), ?_⟩
        intro x hx hex
        rcases List.mem_cons.mp hx with rfl | hxr
        · exact r2
        · exact r3 x hxr hex
      · rename_i hcond
        obtain ⟨r1, r2, r3⟩ := ih top tv htop res hres
        refine ⟨r1, r2, ?_⟩
        intro x hx hex
        rcases List.mem_cons.mp hx with rfl | hxr
        · by_cases hv : tv < votesOf h x
          · exact absurd ⟨hex, hv⟩ hcond
          · exact le_trans (not_lt.mp hv) r2
        · exact r3 x hxr hex

/-- A pushed window never exceeds WINDOW entries. -/
theorem push_eq_drop (h : List SEntry) (nm : String) (c : ℚ) (hlen : h.length ≤ 9) :
    push h nm c = (h ++ [({ name := nm, confidence := c } : SEntry)]).drop (h.length + 1 - 9) := by
  unfold push WINDOW
  by_cases h9 : h.length = 9
  · rw [if_pos (by simp [h9])]
    rw [show h.length + 1 - 9 = 1 by omega, ← List.drop_one]
  · rw [if_neg (by simp; omega)]
    rw [show h.length + 1 - 9 = 0 by omega, List.drop_zero]

theorem push_length_le (h : List SEntry) (nm : String) (c : ℚ) (hlen : h.length ≤ 9) :
    (push h nm c).length ≤ 9 := by
  rw [push_eq_drop h nm c hlen, List.length_drop]
  simp
  omega

/-- After a run of pushes, the window is the suffix of the concatenation that
fits the capacity. -/
theorem pushMany_eq_drop (nm : String) :
    ∀ (cs : List ℚ) (h : List SEntry), h.length ≤ 9 →
      pushMany h nm cs
        = (h ++ cs.map fun c => ({ name := nm, confidence := c } : SEntry)).drop
            (h.length + cs.length - 9) := by
  intro cs
  induction cs with
  | nil =>
      intro h hlen
      simp only [pushMany, List.map_nil, List.append_nil, List.length_nil]
      rw [show h.length + 0 - 9 = 0 by omega, List.drop_zero]
  | cons c cs ih =>
      intro h hlen
      simp only [pushMany]
      rw [ih (push h nm c) (push_length_le h nm c hlen)]
      rw [push_eq_drop h nm c hlen]
      by_cases h9 : h.length = 9
      · rw [show h.length + 1 - 9 = 1 by omega]
        have h1 : 1 ≤ (h ++ [({ name := nm, confidence := c } : SEntry)]).length := by simp
        rw [← List.drop_append_of_le_length h1, List.drop_drop]
        have e2 : ((h ++ [({ name := nm, confidence := c } : SEntry)]).drop 1).length = 9 := by
          simp [h9]
        rw [e2]
        rw [show 1 + (9 + cs.length - 9) = h.length + (c :: cs).length - 9 by
          simp; omega]
        congr 1
        simp
      · rw [show h.length + 1 - 9 = 0 by omega, List.drop_zero]
        have e2 : (h ++ [({ name := nm, confidence := c } : SEntry)]).length = h.length + 1 := by
          simp
        rw [e2]
        rw [show h.length + 1 + cs.length - 9 = h.length + (c :: cs).length - 9 by
          simp; omega]
        congr 1
        simp

/-- Vote sum of a window whose entries all carry the same name:
the full triangular weight (shifted by the index offset). -/
theorem votesAux_const (nm : String) :
    ∀ (cs : List ℚ) (i : ℕ),
      votesAux nm (cs.map fun c => ({ name := nm, confidence := c } : SEntry)) i
        = (cs.length : ℚ) * (i : ℚ) + (cs.length : ℚ) * ((cs.length : ℚ) + 1) / 2 := by
  intro cs
  induction cs with
  | nil => intro i; simp [votesAux]
  | cons c cs ih =>
      intro i
      simp only [List.map_cons, votesAux, eq_self_iff_true, if_true, List.length_cons]
      rw [ih (i + 1)]
      push_cast
      ring

theorem namesAux_const (nm : String) :
    ∀ (cs : List ℚ) (acc : List String), nm ∈ acc →
      namesAux (cs.map fun c => ({ name := nm, confidence := c } : SEntry)) acc = acc := by
  intro cs
  induction cs with
  | nil => intro acc _; simp [namesAux]
  | cons c cs ih =>
      intro acc hacc
      simp only [List.map_cons, namesAux]
      rw [if_pos hacc]
      exact ih acc hacc

theorem namesOf_const (nm : String) (c : ℚ) (cs : List ℚ) :
    namesOf ((c :: cs).map fun x => ({ name := nm, confidence := x } : SEntry)) = [nm] := by
  simp only [List.map_cons, namesOf, namesAux]
  rw [if_neg (by simp), List.nil_append]
  exact namesAux_const nm cs [nm] (by simp)

/-- best() on a window of 9 entries of a single name selects that name. -/
theorem best_const (nm : String) (cs : List ℚ) (hcs : cs.length = 9) :
    best (cs.map fun c => ({ name := nm, confidence := c } : SEntry))
      = some { name := nm,
               confidence := min 1
                 (confAccOf (cs.map fun c => ({ name := nm, confidence := c } : SEntry)) nm
                   / votesOf (cs.map fun c => ({ name := nm, confidence := c } : SEntry)) nm) } := by
  cases cs with
  | nil => simp at hcs
  | cons c0 cs0 =>
      have hlen : ((c0 :: cs0).map fun c => ({ name := nm, confidence := c } : SEntry)).length = 9 := by
        simp only [List.length_map]
        exact hcs
      have hv : votesOf ((c0 :: cs0).map fun c => ({ name := nm, confidence := c } : SEntry)) nm
          = 45 := by
        unfold votesOf
        rw [votesAux_const nm (c0 :: cs0) 0, hcs]
        norm_num
      have htw : totalWOf ((c0 :: cs0).map fun c => ({ name := nm, confidence := c } : SEntry))
          = 45 := by
        unfold totalWOf
        rw [hlen]
        norm_num
      unfold best
      rw [if_neg (by rw [hlen]; norm_num), namesOf_const nm c0 cs0, htw]
      simp only [pickTop]
      rw [if_pos ⟨by rw [hv]; norm_num [MIN_PCT], by rw [hv]; norm_num⟩]

/-! ## Claim theorems for the OnlineLearner and TemporalSmoother -/

/-- Claim C3: OnlineLearner.adjust(name, rawScore) equals rawScore whenever the
sign has fewer than 8 recorded observations or was never observed; when the
count is at least 8 it equals rawScore + clamp(8.5 − ema, −2.5, +2.5), and the
applied offset always lies in [−2.5, +2.5]. -/
theorem claim_C3 (st : Learner) (nm : String) (raw : ℚ) :
    (getStat st nm = none → adjust st nm raw = raw)
    ∧ (∀ s, getStat st nm = some s → s.count < 8 → adjust st nm raw = raw)
    ∧ (∀ s, getStat st nm = some s → 8 ≤ s.count →
        adjust st nm raw = raw + max (-2.5) (min 2.5 (8.5 - s.ema))
        ∧ -2.5 ≤ max (-2.5) (min 2.5 (8.5 - s.ema))
        ∧ max (-2.5) (min 2.5 (8.5 - s.ema)) ≤ 2.5) := by
  refine ⟨?_, ?_, ?_⟩
  · intro h
    simp [adjust, h]
  · intro s hs hc
    simp [adjust, hs, MIN_CONFIRM, hc]
  · intro s hs hc
    have hnc : ¬ s.count < MIN_CONFIRM := by
      simp only [MIN_CONFIRM]
      omega
    refine ⟨?_, le_max_left _ _, ?_⟩
    · simp only [adjust, hs, if_neg hnc]
      norm_num [MAX_OFFSET, TARGET_SCORE]
    · exact max_le (by norm_num) (le_trans (min_le_left _ _) (by norm_num))

/-- Witness for C3 at a concrete learner state with count 8 and ema 3. -/
theorem claim_C3_witness :
    adjust [("A", { ema := 3, count := 8 })] "A" 5 = 5 + max (-2.5) (min 2.5 (8.5 - 3))
    ∧ (-2.5 : ℚ) ≤ max (-2.5) (min 2.5 (8.5 - 3))
    ∧ max (-2.5) (min 2.5 ((8.5 : ℚ) - 3)) ≤ 2.5 :=
  (claim_C3 [("A", { ema := 3, count := 8 })] "A" 5).2.2 { ema := 3, count := 8 }
    (by simp [getStat]) (by norm_num)

/-- Claim C8: observing the target score 8.5 moves a sign's EMA strictly
closer to 8.5 without overshooting (unless it is already 8.5); after a
learner reset, adjust returns every score unchanged, as if never observed. -/
theorem claim_C8 :
    (∀ (st : Learner) (nm : String) (s s2 : Stat), getStat st nm = some s →
      getStat (observe st nm 8.5) nm = some s2 →
        s2.ema = 0.12 * 8.5 + 0.88 * s.ema
        ∧ (s.ema ≠ 8.5 → |s2.ema - 8.5| < |s.ema - 8.5|)
        ∧ (s.ema ≤ 8.5 → s.ema ≤ s2.ema ∧ s2.ema ≤ 8.5)
        ∧ (8.5 ≤ s.ema → s2.ema ≤ s.ema ∧ 8.5 ≤ s2.ema))
    ∧ (∀ (st : Learner) (nm : String) (s2 : Stat), getStat st nm = none →
        getStat (observe st nm 8.5) nm = some s2 → s2.ema = 8.5)
    ∧ (∀ (st : Learner) (nm : String) (raw : ℚ),
        adjust (resetLearner st) nm raw = raw ∧ getStat (resetLearner st) nm = none) := by
  refine ⟨?_, ?_, ?_⟩
  · intro st nm s s2 hs hs2
    have hobs : getStat (observe st nm 8.5) nm
        = some { ema := EMA_ALPHA * 8.5 + (1 - EMA_ALPHA) * s.ema, count := s.count + 1 } := by
      simp only [observe, hs, Option.getD_some]
      exact getStat_setStat st nm _
    rw [hobs] at hs2
    have hs2v : s2 = { ema := EMA_ALPHA * 8.5 + (1 - EMA_ALPHA) * s.ema, count := s.count + 1 } := by
      injection hs2.symm
    subst hs2v
    have hema : ({ ema := EMA_ALPHA * 8.5 + (1 - EMA_ALPHA) * s.ema, count := s.count + 1 } : Stat).ema
        = 0.12 * 8.5 + 0.88 * s.ema := by
      norm_num [EMA_ALPHA]
    refine ⟨hema, ?_, ?_, ?_⟩
    · intro hne
      rw [hema]
      have hd : (0.12 : ℚ) * 8.5 + 0.88 * s.ema - 8.5 = 0.88 * (s.ema - 8.5) := by ring
      rw [hd, abs_mul, abs_of_pos (by norm_num : (0 : ℚ) < 0.88)]
      have hpos : 0 < |s.ema - 8.5| := abs_pos.mpr (sub_ne_zero.mpr hne)
      nlinarith
    · intro hle
      rw [hema]
      constructor <;> nlinarith
    · intro hge
      rw [hema]
      constructor <;> nlinarith
  · intro st nm s2 hs hs2
    have hobs : getStat (observe st nm 8.5) nm
        = some { ema := EMA_ALPHA * 8.5 + (1 - EMA_ALPHA) * 8.5, count := 0 + 1 } := by
      simp only [observe, hs, Option.getD_none]
      exact getStat_setStat st nm _
    rw [hobs] at hs2
    have hs2v : s2 = { ema := EMA_ALPHA * 8.5 + (1 - EMA_ALPHA) * 8.5, count := 0 + 1 } := by
      injection hs2.symm
    subst hs2v
    norm_num [EMA_ALPHA]
  · intro st nm raw
    exact ⟨by simp [adjust, resetLearner, getStat], by simp [resetLearner, getStat]⟩

/-- Witness for C8: one observe(8.5) step on ema 7 yields ema 7.18, strictly
closer to 8.5; adjust after reset is the identity. -/
theorem claim_C8_witness :
    ({ ema := 7.18, count := 4 } : Stat).ema
        = 0.12 * 8.5 + 0.88 * ({ ema := 7, count := 3 } : Stat).ema
    ∧ |({ ema := 7.18, count := 4 } : Stat).ema - 8.5|
        < |({ ema := 7, count := 3 } : Stat).ema - 8.5|
    ∧ adjust (resetLearner [("A", { ema := 7, count := 3 })]) "A" 5 = 5 := by
  have h1 := claim_C8.1 [("A", { ema := 7, count := 3 })] "A"
    { ema := 7, count := 3 } { ema := 7.18, count := 4 }
    (by simp [getStat])
    (by norm_num [observe, getStat, setStat, EMA_ALPHA])
  exact ⟨h1.1, h1.2.1 (by norm_num), (claim_C8.2.2 [("A", { ema := 7, count := 3 })] "A" 5).1⟩

/-- Claim C9: Engine.reset clears the TemporalSmoother window (so best()
returns none) and leaves every OnlineLearner statistic unchanged. -/
theorem claim_C9 (e : EngineState) :
    (engineReset e).learner = e.learner
    ∧ (∀ nm, getStat (engineReset e).learner nm = getStat e.learner nm)
    ∧ (engineReset e).smoother = []
    ∧ best (engineReset e).smoother = none := by
  refine ⟨rfl, fun nm => rfl, rfl, ?_⟩
  simp [engineReset, resetSmoother, best]

/-- Witness for C9 after nine detections of the sign Z at confidence 0.9. -/
theorem claim_C9_witness :
    (engineReset
        { smoother := pushMany [] "Z" [0.9, 0.9, 0.9, 0.9, 0.9, 0.9, 0.9, 0.9, 0.9],
          learner := [("Z", { ema := 8, count := 3 })] }).learner
      = [("Z", { ema := 8, count := 3 })]
    ∧ best (engineReset
        { smoother := pushMany [] "Z" [0.9, 0.9, 0.9, 0.9, 0.9, 0.9, 0.9, 0.9, 0.9],
          learner := [("Z", { ema := 8, count := 3 })] }).smoother = none := by
  have h := claim_C9
    { smoother := pushMany [] "Z" [0.9, 0.9, 0.9, 0.9, 0.9, 0.9, 0.9, 0.9, 0.9],
      learner := [("Z", { ema := 8, count := 3 })] }
  exact ⟨h.1, h.2.2.2⟩

/-- Claim C2: best() returns none on windows of fewer than 2 entries; a
returned name is eligible (recency-weighted vote fraction at least 0.48 of
the triangular total weight), has the largest vote sum among eligible names,
and carries the vote-weighted average confidence capped at 1; after 9 pushes
of one name the window elects that name with confidence at most 1. -/
theorem claim_C2 :
    (∀ h : List SEntry, h.length < 2 → best h = none)
    ∧ (∀ (h : List SEntry) (r : SEntry), best h = some r →
        MIN_PCT ≤ votesOf h r.name / totalWOf h
        ∧ (∀ nm, MIN_PCT ≤ votesOf h nm / totalWOf h → votesOf h nm ≤ votesOf h r.name)
        ∧ r.confidence = min 1 (confAccOf h r.name / votesOf h r.name))
    ∧ (∀ (nm : String) (cs : List ℚ) (h0 : List SEntry),
        h0.length ≤ WINDOW → cs.length = 9 →
          (best (pushMany h0 nm cs)).isSome = true
          ∧ ∀ r, best (pushMany h0 nm cs) = some r → r.name = nm ∧ r.confidence ≤ 1) := by
  refine ⟨?_, ?_, ?_⟩
  · intro h hl
    simp [best, hl]
  · intro h r hr
    unfold best at hr
    split at hr
    · exact absurd hr (by simp)
    · cases hpk : pickTop h (totalWOf h) (namesOf h) none 0 with
      | none => rw [hpk] at hr; exact absurd hr (by simp)
      | some nm =>
          rw [hpk] at hr
          have hx : some (⟨nm, min 1 (confAccOf h nm / votesOf h nm)⟩ : SEntry) = some r := hr
          have hrv := Option.some_inj.mp hx
          subst hrv
          obtain ⟨r1, _, r3⟩ := pickTop_spec h (totalWOf h) (namesOf h) none 0
            (fun t ht => absurd ht (by simp)) nm hpk
          refine ⟨r1, ?_, rfl⟩
          intro x hx
          by_cases hmem : x ∈ namesOf h
          · exact r3 x hmem hx
          · rw [votesOf_eq_zero_of_not_mem hmem] at hx
            rw [zero_div] at hx
            norm_num [MIN_PCT] at hx
  · intro nm cs h0 hh0 hcs
    have hpush : pushMany h0 nm cs = cs.map fun c => ({ name := nm, confidence := c } : SEntry) := by
      rw [pushMany_eq_drop nm cs h0 (by simpa [WINDOW] using hh0)]
      rw [show h0.length + cs.length - 9 = h0.length by omega]
      exact List.drop_left h0 _
    rw [hpush, best_const nm cs hcs]
    refine ⟨rfl, ?_⟩
    intro r hr
    have hrv := Option.some_inj.mp hr
    subst hrv
    exact ⟨rfl, min_le_left _ _⟩

/-- Witness for C2: the empty window, a 2-entry window, and nine pushes of
the name A at concrete confidences. -/
theorem claim_C2_witness :
    best [] = none
    ∧ MIN_PCT ≤ votesOf [{ name := "A", confidence := 0.9 }, { name := "A", confidence := 0.8 }] "A"
        / totalWOf [{ name := "A", confidence := 0.9 }, { name := "A", confidence := 0.8 }]
    ∧ ({ name := "A", confidence := 5/6 } : SEntry).confidence
        = min 1 (confAccOf [{ name := "A", confidence := 0.9 }, { name := "A", confidence := 0.8 }] "A"
            / votesOf [{ name := "A", confidence := 0.9 }, { name := "A", confidence := 0.8 }] "A")
    ∧ (best (pushMany [] "A" [0.9, 0.9, 0.9, 0.9, 0.9, 0.9, 0.9, 0.9, 0.9])).isSome = true := by
  have hbest : best [{ name := "A", confidence := 0.9 }, { name := "A", confidence := 0.8 }]
      = some { name := "A", confidence := 5/6 } := by
    norm_num [best, pickTop, namesOf, namesAux, votesOf, votesAux, confAccOf, confAccAux,
      totalWOf, MIN_PCT]
  have h2 := claim_C2.2.1 [{ name := "A", confidence := 0.9 }, { name := "A", confidence := 0.8 }]
    { name := "A", confidence := 5/6 } hbest
  have h3 := claim_C2.2.2 "A" [0.9, 0.9, 0.9, 0.9, 0.9, 0.9, 0.9, 0.9, 0.9] []
    (by simp [WINDOW]) (by simp)
  exact ⟨claim_C2.1 [] (by simp), h2.1, h2.2.2, h3.1⟩

/-! ## Evaluation helpers for the geometric embedding -/

theorem dist_eval (p q : Pt) (d : ℝ) (hd : 0 ≤ d)
    (h : (p.x - q.x) ^ 2 + (p.y - q.y) ^ 2 + (p.z - q.z) ^ 2 = d ^ 2) :
    dist p q = d := by
  unfold dist
  rw [h]
  exact Real.sqrt_sq hd

theorem isExtended_true (lm : List Pt) (tip mcp : ℕ) (thr : ℝ)
    (h : dist (lmGet lm 0) (lmGet lm tip) / handScale lm
      > dist (lmGet lm 0) (lmGet lm mcp) / handScale lm * thr) :
    isExtended lm tip mcp thr = true := by
  unfold isExtended
  exact decide_eq_true h

theorem isExtended_false (lm : List Pt) (tip mcp : ℕ) (thr : ℝ)
    (h : ¬ (dist (lmGet lm 0) (lmGet lm tip) / handScale lm
      > dist (lmGet lm 0) (lmGet lm mcp) / handScale lm * thr)) :
    isExtended lm tip mcp thr = false := by
  unfold isExtended
  exact decide_eq_false h

/-! ## Branch evaluation lemmas for classify -/

/-- classify on a thumb-only hand with the thumb up: THUMBS UP at 0.95. -/
theorem classify_thumbsUp {lm : List Pt} (h21 : ¬ lm.length < 21)
    (hfs : fingerStates lm = ⟨true, false, false, false, false⟩)
    (hup : thumbUp lm = true) :
    classify lm = some ⟨"THUMBS UP", 0.95⟩ := by
  unfold classify
  rw [if_neg h21]
  simp [hfs, hup]

/-- classify on a thumb+index hand whose thumb-base angle exceeds 58°:
the L pose at 0.90. -/
theorem classify_L {lm : List Pt} (h21 : ¬ lm.length < 21)
    (hfs : fingerStates lm = ⟨true, true, false, false, false⟩)
    (hangle : angleDeg (lmGet lm 4) (lmGet lm 2) (lmGet lm 5) > 58) :
    classify lm = some ⟨"L", 0.90⟩ := by
  unfold classify
  rw [if_neg h21]
  simp [hfs, decide_eq_true hangle]

/-- classify on a thumb+index hand whose thumb-base angle does not exceed
58°: the right-angle branch defers and the D branch fires. -/
theorem classify_D {lm : List Pt} (h21 : ¬ lm.length < 21)
    (hfs : fingerStates lm = ⟨true, true, false, false, false⟩)
    (hangle : ¬ (angleDeg (lmGet lm 4) (lmGet lm 2) (lmGet lm 5) > 58)) :
    classify lm = some ⟨"D",
      if dist (lmGet lm 4) (lmGet lm 12) / handScale lm < 0.6 then 0.84 else 0.72⟩ := by
  unfold classify
  rw [if_neg h21]
  simp [hfs, decide_eq_false hangle]

/-- classify on a thumb+pinky-only hand: always the Y pose at 0.88 (the
CALL ME branch is unreachable behind it). -/
theorem classify_Y {lm : List Pt} (h21 : ¬ lm.length < 21)
    (hfs : fingerStates lm = ⟨true, false, false, false, true⟩) :
    classify lm = some ⟨"Y", 0.88⟩ := by
  unfold classify
  rw [if_neg h21]
  simp [hfs]

/-- classify on an all-five-extended hand with the index up and a wide
spread: STOP at 0.85. -/
theorem classify_STOP {lm : List Pt} (h21 : ¬ lm.length < 21)
    (hfs : fingerStates lm = ⟨true, true, true, true, true⟩)
    (hidx : (lmGet lm 8).y - (lmGet lm 5).y < -0.05)
    (hspread : dist (lmGet lm 8) (lmGet lm 20) / handScale lm > 1.2) :
    classify lm = some ⟨"STOP", 0.85⟩ := by
  unfold classify
  rw [if_neg h21]
  simp [hfs, decide_eq_true hidx, decide_eq_true hspread]

/-- classify on a middle-finger-only hand: no branch matches, defer. -/
theorem classify_noMatch {lm : List Pt} (h21 : ¬ lm.length < 21)
    (hfs : fingerStates lm = ⟨false, false, true, false, false⟩) :
    classify lm = none := by
  unfold classify
  rw [if_neg h21]
  simp [hfs]

/-! ## Evaluation of the witness hands -/

theorem fs_handTU : fingerStates handTU = ⟨true, false, false, false, false⟩ := by
  have d9 : dist (lmGet handTU 0) (lmGet handTU 9) = 1 := by
    rw [show lmGet handTU 0 = ⟨0, 0, 0⟩ from rfl, show lmGet handTU 9 = ⟨0, -1, 0⟩ from rfl]
    exact dist_eval _ _ 1 (by norm_num) (by norm_num)
  have hsc : handScale handTU = 1 := by
    unfold handScale
    rw [d9]
    exact max_eq_right (by norm_num)
  have d4 : dist (lmGet handTU 0) (lmGet handTU 4) = 1 := by
    rw [show lmGet handTU 0 = ⟨0, 0, 0⟩ from rfl, show lmGet handTU 4 = ⟨0.6, -0.8, 0⟩ from rfl]
    exact dist_eval _ _ 1 (by norm_num) (by norm_num)
  have d2 : dist (lmGet handTU 0) (lmGet handTU 2) = 0.5 := by
    rw [show lmGet handTU 0 = ⟨0, 0, 0⟩ from rfl, show lmGet handTU 2 = ⟨0.3, -0.4, 0⟩ from rfl]
    exact dist_eval _ _ 0.5 (by norm_num) (by norm_num)
  have d8 : dist (lmGet handTU 0) (lmGet handTU 8) = 0 := by
    rw [show lmGet handTU 0 = ⟨0, 0, 0⟩ from rfl, show lmGet handTU 8 = ⟨0, 0, 0⟩ from rfl]
    exact dist_eval _ _ 0 le_rfl (by norm_num)
  have d5 : dist (lmGet handTU 0) (lmGet handTU 5) = 0 := by
    rw [show lmGet handTU 0 = ⟨0, 0, 0⟩ from rfl, show lmGet handTU 5 = ⟨0, 0, 0⟩ from rfl]
    exact dist_eval _ _ 0 le_rfl (by norm_num)
  have d12 : dist (lmGet handTU 0) (lmGet handTU 12) = 0 := by
    rw [show lmGet handTU 0 = ⟨0, 0, 0⟩ from rfl, show lmGet handTU 12 = ⟨0, 0, 0⟩ from rfl]
    exact dist_eval _ _ 0 le_rfl (by norm_num)
  have d16 : dist (lmGet handTU 0) (lmGet handTU 16) = 0 := by
    rw [show lmGet handTU 0 = ⟨0, 0, 0⟩ from rfl, show lmGet handTU 16 = ⟨0, 0, 0⟩ from rfl]
    exact dist_eval _ _ 0 le_rfl (by norm_num)
  have d13 : dist (lmGet handTU 0) (lmGet handTU 13) = 0 := by
    rw [show lmGet handTU 0 = ⟨0, 0, 0⟩ from rfl, show lmGet handTU 13 = ⟨0, 0, 0⟩ from rfl]
    exact dist_eval _ _ 0 le_rfl (by norm_num)
  have d20 : dist (lmGet handTU 0) (lmGet handTU 20) = 0 := by
    rw [show lmGet handTU 0 = ⟨0, 0, 0⟩ from rfl, show lmGet handTU 20 = ⟨0, 0, 0⟩ from rfl]
    exact dist_eval _ _ 0 le_rfl (by norm_num)
  have d17 : dist (lmGet handTU 0) (lmGet handTU 17) = 0 := by
    rw [show lmGet handTU 0 = ⟨0, 0, 0⟩ from rfl, show lmGet handTU 17 = ⟨0, 0, 0⟩ from rfl]
    exact dist_eval _ _ 0 le_rfl (by norm_num)
  unfold fingerStates
  rw [isExtended_true handTU 4 2 1.30 (by rw [hsc, d4, d2]; norm_num),
    isExtended_false handTU 8 5 1.60 (by rw [hsc, d8, d5]; norm_num),
    isExtended_false handTU 12 9 1.60 (by rw [hsc, d12, d9]; norm_num),
    isExtended_false handTU 16 13 1.55 (by rw [hsc, d16, d13]; norm_num),
    isExtended_false handTU 20 17 1.45 (by rw [hsc, d20, d17]; norm_num)]

theorem classify_handTU : classify handTU = some ⟨"THUMBS UP", 0.95⟩ := by
  apply classify_thumbsUp (by simp [handTU]) fs_handTU
  unfold thumbUp
  rw [show lmGet handTU 4 = ⟨0.6, -0.8, 0⟩ from rfl, show lmGet handTU 5 = ⟨0, 0, 0⟩ from rfl]
  exact decide_eq_true (by norm_num)

/-- Evaluation of angleDeg for unit-length rays whose dot product is the
cosine of a known angle in [0, π]. -/
theorem angleDeg_eval (a b c : Pt) (t : ℝ)
    (hA : (a.x - b.x) ^ 2 + (a.y - b.y) ^ 2 + (a.z - b.z) ^ 2 = 1)
    (hC : (c.x - b.x) ^ 2 + (c.y - b.y) ^ 2 + (c.z - b.z) ^ 2 = 1)
    (hdot : (a.x - b.x) * (c.x - b.x) + (a.y - b.y) * (c.y - b.y)
      + (a.z - b.z) * (c.z - b.z) = Real.cos t)
    (h0 : 0 ≤ t) (hpi : t ≤ Real.pi) :
    angleDeg a b c = t * (180 / Real.pi) := by
  simp only [angleDeg]
  rw [hA, hC, hdot]
  simp only [Real.sqrt_one, mul_one]
  rw [if_neg (by norm_num), div_one]
  rw [max_eq_right (Real.neg_one_le_cos t), min_eq_right (Real.cos_le_one t)]
  rw [Real.arccos_cos h0 hpi]

theorem angle_handL : angleDeg (lmGet handL 4) (lmGet handL 2) (lmGet handL 5) = 90 := by
  rw [show lmGet handL 4 = ⟨-1, 0, 0⟩ from rfl, show lmGet handL 2 = ⟨0, 0, 0⟩ from rfl,
    show lmGet handL 5 = ⟨0, -1, 0⟩ from rfl]
  rw [angleDeg_eval _ _ _ (Real.pi / 2) (by norm_num) (by norm_num)
    (by norm_num [Real.cos_pi_div_two]) (by positivity) (by linarith [Real.pi_pos])]
  field_simp
  ring

theorem angle_hand40 : angleDeg (lmGet hand40 4) (lmGet hand40 2) (lmGet hand40 5) = 40 := by
  rw [show lmGet hand40 4 = ⟨1, 0, 0⟩ from rfl, show lmGet hand40 2 = ⟨0, 0, 0⟩ from rfl,
    show lmGet hand40 5
      = ⟨Real.cos (2 * Real.pi / 9), -Real.sin (2 * Real.pi / 9), 0⟩ from rfl]
  rw [angleDeg_eval _ _ _ (2 * Real.pi / 9) (by norm_num)
    (by
      show (Real.cos (2 * Real.pi / 9) - (0 : ℝ)) ^ 2
        + (-Real.sin (2 * Real.pi / 9) - (0 : ℝ)) ^ 2 + ((0 : ℝ) - 0) ^ 2 = 1
      linear_combination Real.sin_sq_add_cos_sq (2 * Real.pi / 9))
    (by
      show ((1 : ℝ) - 0) * (Real.cos (2 * Real.pi / 9) - 0)
        + ((0 : ℝ) - 0) * (-Real.sin (2 * Real.pi / 9) - 0)
        + ((0 : ℝ) - 0) * ((0 : ℝ) - 0) = Real.cos (2 * Real.pi / 9)
      ring)
    (by positivity) (by nlinarith [Real.pi_pos])]
  field_simp
  ring

theorem fs_handL : fingerStates handL = ⟨true, true, false, false, false⟩ := by
  have d9 : dist (lmGet handL 0) (lmGet handL 9) = 1 := by
    rw [show lmGet handL 0 = ⟨0, 0, 0⟩ from rfl, show lmGet handL 9 = ⟨0, -1, 0⟩ from rfl]
    exact dist_eval _ _ 1 (by norm_num) (by norm_num)
  have hsc : handScale handL = 1 := by
    unfold handScale
    rw [d9]
    exact max_eq_right (by norm_num)
  have d4 : dist (lmGet handL 0) (lmGet handL 4) = 1 := by
    rw [show lmGet handL 0 = ⟨0, 0, 0⟩ from rfl, show lmGet handL 4 = ⟨-1, 0, 0⟩ from rfl]
    exact dist_eval _ _ 1 (by norm_num) (by norm_num)
  have d2 : dist (lmGet handL 0) (lmGet handL 2) = 0 := by
    rw [show lmGet handL 0 = ⟨0, 0, 0⟩ from rfl, show lmGet handL 2 = ⟨0, 0, 0⟩ from rfl]
    exact dist_eval _ _ 0 le_rfl (by norm_num)
  have d8 : dist (lmGet handL 0) (lmGet handL 8) = 2 := by
    rw [show lmGet handL 0 = ⟨0, 0, 0⟩ from rfl, show lmGet handL 8 = ⟨0, -2, 0⟩ from rfl]
    exact dist_eval _ _ 2 (by norm_num) (by norm_num)
  have d5 : dist (lmGet handL 0) (lmGet handL 5) = 1 := by
    rw [show lmGet handL 0 = ⟨0, 0, 0⟩ from rfl, show lmGet handL 5 = ⟨0, -1, 0⟩ from rfl]
    exact dist_eval _ _ 1 (by norm_num) (by norm_num)
  have d12 : dist (lmGet handL 0) (lmGet handL 12) = 1 := by
    rw [show lmGet handL 0 = ⟨0, 0, 0⟩ from rfl, show lmGet handL 12 = ⟨0, -1, 0⟩ from rfl]
    exact dist_eval _ _ 1 (by norm_num) (by norm_num)
  have d16 : dist (lmGet handL 0) (lmGet handL 16) = 0 := by
    rw [show lmGet handL 0 = ⟨0, 0, 0⟩ from rfl, show lmGet handL 16 = ⟨0, 0, 0⟩ from rfl]
    exact dist_eval _ _ 0 le_rfl (by norm_num)
  have d13 : dist (lmGet handL 0) (lmGet handL 13) = 0 := by
    rw [show lmGet handL 0 = ⟨0, 0, 0⟩ from rfl, show lmGet handL 13 = ⟨0, 0, 0⟩ from rfl]
    exact dist_eval _ _ 0 le_rfl (by norm_num)
  have d20 : dist (lmGet handL 0) (lmGet handL 20) = 0 := by
    rw [show lmGet handL 0 = ⟨0, 0, 0⟩ from rfl, show lmGet handL 20 = ⟨0, 0, 0⟩ from rfl]
    exact dist_eval _ _ 0 le_rfl (by norm_num)
  have d17 : dist (lmGet handL 0) (lmGet handL 17) = 0 := by
    rw [show lmGet handL 0 = ⟨0, 0, 0⟩ from rfl, show lmGet handL 17 = ⟨0, 0, 0⟩ from rfl]
    exact dist_eval _ _ 0 le_rfl (by norm_num)
  unfold fingerStates
  rw [isExtended_true handL 4 2 1.30 (by rw [hsc, d4, d2]; norm_num),
    isExtended_true handL 8 5 1.60 (by rw [hsc, d8, d5]; norm_num),
    isExtended_false handL 12 9 1.60 (by rw [hsc, d12, d9]; norm_num),
    isExtended_false handL 16 13 1.55 (by rw [hsc, d16, d13]; norm_num),
    isExtended_false handL 20 17 1.45 (by rw [hsc, d20, d17]; norm_num)]

theorem classify_handL : classify handL = some ⟨"L", 0.90⟩ := by
  apply classify_L (by simp [handL]) fs_handL
  rw [angle_handL]
  norm_num

theorem fs_hand40 : fingerStates hand40 = ⟨true, true, false, false, false⟩ := by
  have d9 : dist (lmGet hand40 0) (lmGet hand40 9) = 1 := by
    rw [show lmGet hand40 0 = ⟨0, 0, 0⟩ from rfl, show lmGet hand40 9 = ⟨0, -1, 0⟩ from rfl]
    exact dist_eval _ _ 1 (by norm_num) (by norm_num)
  have hsc : handScale hand40 = 1 := by
    unfold handScale
    rw [d9]
    exact max_eq_right (by norm_num)
  have d4 : dist (lmGet hand40 0) (lmGet hand40 4) = 1 := by
    rw [show lmGet hand40 0 = ⟨0, 0, 0⟩ from rfl, show lmGet hand40 4 = ⟨1, 0, 0⟩ from rfl]
    exact dist_eval _ _ 1 (by norm_num) (by norm_num)
  have d2 : dist (lmGet hand40 0) (lmGet hand40 2) = 0 := by
    rw [show lmGet hand40 0 = ⟨0, 0, 0⟩ from rfl, show lmGet hand40 2 = ⟨0, 0, 0⟩ from rfl]
    exact dist_eval _ _ 0 le_rfl (by norm_num)
  have d8 : dist (lmGet hand40 0) (lmGet hand40 8) = 2 := by
    rw [show lmGet hand40 0 = ⟨0, 0, 0⟩ from rfl, show lmGet hand40 8 = ⟨2, 0, 0⟩ from rfl]
    exact dist_eval _ _ 2 (by norm_num) (by norm_num)
  have d5 : dist (lmGet hand40 0) (lmGet hand40 5) = 1 := by
    rw [show lmGet hand40 0 = ⟨0, 0, 0⟩ from rfl, show lmGet hand40 5
      = ⟨Real.cos (2 * Real.pi / 9), -Real.sin (2 * Real.pi / 9), 0⟩ from rfl]
    refine dist_eval _ _ 1 (by norm_num) ?_
    show ((0 : ℝ) - Real.cos (2 * Real.pi / 9)) ^ 2
      + ((0 : ℝ) - -Real.sin (2 * Real.pi / 9)) ^ 2 + ((0 : ℝ) - 0) ^ 2 = 1 ^ 2
    linear_combination Real.sin_sq_add_cos_sq (2 * Real.pi / 9)
  have d12 : dist (lmGet hand40 0) (lmGet hand40 12) = 1 := by
    rw [show lmGet hand40 0 = ⟨0, 0, 0⟩ from rfl, show lmGet hand40 12 = ⟨0, -1, 0⟩ from rfl]
    exact dist_eval _ _ 1 (by norm_num) (by norm_num)
  have d16 : dist (lmGet hand40 0) (lmGet hand40 16) = 0 := by
    rw [show lmGet hand40 0 = ⟨0, 0, 0⟩ from rfl, show lmGet hand40 16 = ⟨0, 0, 0⟩ from rfl]
    exact dist_eval _ _ 0 le_rfl (by norm_num)
  have d13 : dist (lmGet hand40 0) (lmGet hand40 13) = 0 := by
    rw [show lmGet hand40 0 = ⟨0, 0, 0⟩ from rfl, show lmGet hand40 13 = ⟨0, 0, 0⟩ from rfl]
    exact dist_eval _ _ 0 le_rfl (by norm_num)
  have d20 : dist (lmGet hand40 0) (lmGet hand40 20) = 0 := by
    rw [show lmGet hand40 0 = ⟨0, 0, 0⟩ from rfl, show lmGet hand40 20 = ⟨0, 0, 0⟩ from rfl]
    exact dist_eval _ _ 0 le_rfl (by norm_num)
  have d17 : dist (lmGet hand40 0) (lmGet hand40 17) = 0 := by
    rw [show lmGet hand40 0 = ⟨0, 0, 0⟩ from rfl, show lmGet hand40 17 = ⟨0, 0, 0⟩ from rfl]
    exact dist_eval _ _ 0 le_rfl (by norm_num)
  unfold fingerStates
  rw [isExtended_true hand40 4 2 1.30 (by rw [hsc, d4, d2]; norm_num),
    isExtended_true hand40 8 5 1.60 (by rw [hsc, d8, d5]; norm_num),
    isExtended_false hand40 12 9 1.60 (by rw [hsc, d12, d9]; norm_num),
    isExtended_false hand40 16 13 1.55 (by rw [hsc, d16, d13]; norm_num),
    isExtended_false hand40 20 17 1.45 (by rw [hsc, d20, d17]; norm_num)]

/-- At the 40° thumb-base angle the classifier returns D with confidence
0.72 (the thumb-to-middle-tip distance is √2, not below 0.6). -/
theorem classify_hand40 : classify hand40 = some ⟨"D", 0.72⟩ := by
  have hth : dist (lmGet hand40 4) (lmGet hand40 12) = Real.sqrt 2 := by
    rw [show lmGet hand40 4 = ⟨1, 0, 0⟩ from rfl, show lmGet hand40 12 = ⟨0, -1, 0⟩ from rfl]
    unfold dist
    norm_num
  have hsc : handScale hand40 = 1 := by
    unfold handScale
    rw [show lmGet hand40 0 = ⟨0, 0, 0⟩ from rfl, show lmGet hand40 9 = ⟨0, -1, 0⟩ from rfl]
    rw [dist_eval _ _ 1 (by norm_num) (by norm_num)]
    exact max_eq_right (by norm_num)
  rw [classify_D (by simp [hand40]) fs_hand40 (by rw [angle_hand40]; norm_num)]
  rw [if_neg ?hneg]
  case hneg =>
    rw [hth, hsc, div_one]
    push_neg
    rw [show (0.6 : ℝ) = Real.sqrt 0.36 from by
      rw [show (0.36 : ℝ) = 0.6 ^ 2 by norm_num, Real.sqrt_sq (by norm_num)]]
    exact Real.sqrt_le_sqrt (by norm_num)

theorem fs_handTU22 : fingerStates handTU22 = ⟨true, false, false, false, false⟩ := by
  have d9 : dist (lmGet handTU22 0) (lmGet handTU22 9) = 1 := by
    rw [show lmGet handTU22 0 = ⟨0, 0, 0⟩ from rfl, show lmGet handTU22 9 = ⟨0, -1, 0⟩ from rfl]
    exact dist_eval _ _ 1 (by norm_num) (by norm_num)
  have hsc : handScale handTU22 = 1 := by
    unfold handScale
    rw [d9]
    exact max_eq_right (by norm_num)
  have d4 : dist (lmGet handTU22 0) (lmGet handTU22 4) = 1 := by
    rw [show lmGet handTU22 0 = ⟨0, 0, 0⟩ from rfl, show lmGet handTU22 4 = ⟨0.6, -0.8, 0⟩ from rfl]
    exact dist_eval _ _ 1 (by norm_num) (by norm_num)
  have d2 : dist (lmGet handTU22 0) (lmGet handTU22 2) = 0.5 := by
    rw [show lmGet handTU22 0 = ⟨0, 0, 0⟩ from rfl, show lmGet handTU22 2 = ⟨0.3, -0.4, 0⟩ from rfl]
    exact dist_eval _ _ 0.5 (by norm_num) (by norm_num)
  have d8 : dist (lmGet handTU22 0) (lmGet handTU22 8) = 0 := by
    rw [show lmGet handTU22 0 = ⟨0, 0, 0⟩ from rfl, show lmGet handTU22 8 = ⟨0, 0, 0⟩ from rfl]
    exact dist_eval _ _ 0 le_rfl (by norm_num)
  have d5 : dist (lmGet handTU22 0) (lmGet handTU22 5) = 0 := by
    rw [show lmGet handTU22 0 = ⟨0, 0, 0⟩ from rfl, show lmGet handTU22 5 = ⟨0, 0, 0⟩ from rfl]
    exact dist_eval _ _ 0 le_rfl (by norm_num)
  have d12 : dist (lmGet handTU22 0) (lmGet handTU22 12) = 0 := by
    rw [show lmGet handTU22 0 = ⟨0, 0, 0⟩ from rfl, show lmGet handTU22 12 = ⟨0, 0, 0⟩ from rfl]
    exact dist_eval _ _ 0 le_rfl (by norm_num)
  have d16 : dist (lmGet handTU22 0) (lmGet handTU22 16) = 0 := by
    rw [show lmGet handTU22 0 = ⟨0, 0, 0⟩ from rfl, show lmGet handTU22 16 = ⟨0, 0, 0⟩ from rfl]
    exact dist_eval _ _ 0 le_rfl (by norm_num)
  have d13 : dist (lmGet handTU22 0) (lmGet handTU22 13) = 0 := by
    rw [show lmGet handTU22 0 = ⟨0, 0, 0⟩ from rfl, show lmGet handTU22 13 = ⟨0, 0, 0⟩ from rfl]
    exact dist_eval _ _ 0 le_rfl (by norm_num)
  have d20 : dist (lmGet handTU22 0) (lmGet handTU22 20) = 0 := by
    rw [show lmGet handTU22 0 = ⟨0, 0, 0⟩ from rfl, show lmGet handTU22 20 = ⟨0, 0, 0⟩ from rfl]
    exact dist_eval _ _ 0 le_rfl (by norm_num)
  have d17 : dist (lmGet handTU22 0) (lmGet handTU22 17) = 0 := by
    rw [show lmGet handTU22 0 = ⟨0, 0, 0⟩ from rfl, show lmGet handTU22 17 = ⟨0, 0, 0⟩ from rfl]
    exact dist_eval _ _ 0 le_rfl (by norm_num)
  unfold fingerStates
  rw [isExtended_true handTU22 4 2 1.30 (by rw [hsc, d4, d2]; norm_num),
    isExtended_false handTU22 8 5 1.60 (by rw [hsc, d8, d5]; norm_num),
    isExtended_false handTU22 12 9 1.60 (by rw [hsc, d12, d9]; norm_num),
    isExtended_false handTU22 16 13 1.55 (by rw [hsc, d16, d13]; norm_num),
    isExtended_false handTU22 20 17 1.45 (by rw [hsc, d20, d17]; norm_num)]

theorem classify_handTU22 : classify handTU22 = some ⟨"THUMBS UP", 0.95⟩ := by
  apply classify_thumbsUp (by simp [handTU22, handTU]) fs_handTU22
  unfold thumbUp
  rw [show lmGet handTU22 4 = ⟨0.6, -0.8, 0⟩ from rfl,
    show lmGet handTU22 5 = ⟨0, 0, 0⟩ from rfl]
  exact decide_eq_true (by norm_num)

theorem fs_handSTOP : fingerStates handSTOP = ⟨true, true, true, true, true⟩ := by
  have d9 : dist (lmGet handSTOP 0) (lmGet handSTOP 9) = 1 := by
    rw [show lmGet handSTOP 0 = ⟨0, 0, 0⟩ from rfl, show lmGet handSTOP 9 = ⟨0, -1, 0⟩ from rfl]
    exact dist_eval _ _ 1 (by norm_num) (by norm_num)
  have hsc : handScale handSTOP = 1 := by
    unfold handScale
    rw [d9]
    exact max_eq_right (by norm_num)
  have d4 : dist (lmGet handSTOP 0) (lmGet handSTOP 4) = 1 := by
    rw [show lmGet handSTOP 0 = ⟨0, 0, 0⟩ from rfl, show lmGet handSTOP 4 = ⟨-0.6, 0.8, 0⟩ from rfl]
    exact dist_eval _ _ 1 (by norm_num) (by norm_num)
  have d2 : dist (lmGet handSTOP 0) (lmGet handSTOP 2) = 0.5 := by
    rw [show lmGet handSTOP 0 = ⟨0, 0, 0⟩ from rfl, show lmGet handSTOP 2 = ⟨-0.3, 0.4, 0⟩ from rfl]
    exact dist_eval _ _ 0.5 (by norm_num) (by norm_num)
  have d8 : dist (lmGet handSTOP 0) (lmGet handSTOP 8) = 3 := by
    rw [show lmGet handSTOP 0 = ⟨0, 0, 0⟩ from rfl, show lmGet handSTOP 8 = ⟨0, -3, 0⟩ from rfl]
    exact dist_eval _ _ 3 (by norm_num) (by norm_num)
  have d5 : dist (lmGet handSTOP 0) (lmGet handSTOP 5) = 1 := by
    rw [show lmGet handSTOP 0 = ⟨0, 0, 0⟩ from rfl, show lmGet handSTOP 5 = ⟨0, -1, 0⟩ from rfl]
    exact dist_eval _ _ 1 (by norm_num) (by norm_num)
  have d12 : dist (lmGet handSTOP 0) (lmGet handSTOP 12) = 2 := by
    rw [show lmGet handSTOP 0 = ⟨0, 0, 0⟩ from rfl, show lmGet handSTOP 12 = ⟨0, -2, 0⟩ from rfl]
    exact dist_eval _ _ 2 (by norm_num) (by norm_num)
  have d16 : dist (lmGet handSTOP 0) (lmGet handSTOP 16) = 2 := by
    rw [show lmGet handSTOP 0 = ⟨0, 0, 0⟩ from rfl, show lmGet handSTOP 16 = ⟨0, -2, 0⟩ from rfl]
    exact dist_eval _ _ 2 (by norm_num) (by norm_num)
  have d13 : dist (lmGet handSTOP 0) (lmGet handSTOP 13) = 1 := by
    rw [show lmGet handSTOP 0 = ⟨0, 0, 0⟩ from rfl, show lmGet handSTOP 13 = ⟨0, -1, 0⟩ from rfl]
    exact dist_eval _ _ 1 (by norm_num) (by norm_num)
  have d20 : dist (lmGet handSTOP 0) (lmGet handSTOP 20) = 1 := by
    rw [show lmGet handSTOP 0 = ⟨0, 0, 0⟩ from rfl, show lmGet handSTOP 20 = ⟨0.6, 0.8, 0⟩ from rfl]
    exact dist_eval _ _ 1 (by norm_num) (by norm_num)
  have d17 : dist (lmGet handSTOP 0) (lmGet handSTOP 17) = 0.5 := by
    rw [show lmGet handSTOP 0 = ⟨0, 0, 0⟩ from rfl, show lmGet handSTOP 17 = ⟨0.3, 0.4, 0⟩ from rfl]
    exact dist_eval _ _ 0.5 (by norm_num) (by norm_num)
  unfold fingerStates
  rw [isExtended_true handSTOP 4 2 1.30 (by rw [hsc, d4, d2]; norm_num),
    isExtended_true handSTOP 8 5 1.60 (by rw [hsc, d8, d5]; norm_num),
    isExtended_true handSTOP 12 9 1.60 (by rw [hsc, d12, d9]; norm_num),
    isExtended_true handSTOP 16 13 1.55 (by rw [hsc, d16, d13]; norm_num),
    isExtended_true handSTOP 20 17 1.45 (by rw [hsc, d20, d17]; norm_num)]

theorem classify_handSTOP : classify handSTOP = some ⟨"STOP", 0.85⟩ := by
  have hsc : handScale handSTOP = 1 := by
    unfold handScale
    rw [show lmGet handSTOP 0 = ⟨0, 0, 0⟩ from rfl, show lmGet handSTOP 9 = ⟨0, -1, 0⟩ from rfl]
    rw [dist_eval _ _ 1 (by norm_num) (by norm_num)]
    exact max_eq_right (by norm_num)
  apply classify_STOP (by simp [handSTOP]) fs_handSTOP
  · rw [show lmGet handSTOP 8 = ⟨0, -3, 0⟩ from rfl, show lmGet handSTOP 5 = ⟨0, -1, 0⟩ from rfl]
    norm_num
  · rw [show lmGet handSTOP 8 = ⟨0, -3, 0⟩ from rfl, show lmGet handSTOP 20 = ⟨0.6, 0.8, 0⟩ from rfl]
    rw [hsc, div_one]
    rw [show dist ⟨0, -3, 0⟩ ⟨0.6, 0.8, 0⟩ = Real.sqrt 14.8 from by
      unfold dist
      congr 1
      norm_num]
    exact (Real.lt_sqrt (by norm_num)).mpr (by norm_num)

theorem fs_handYH : fingerStates handYH = ⟨true, false, false, false, true⟩ := by
  have d9 : dist (lmGet handYH 0) (lmGet handYH 9) = 1 := by
    rw [show lmGet handYH 0 = ⟨0, 0, 0⟩ from rfl, show lmGet handYH 9 = ⟨0, -1, 0⟩ from rfl]
    exact dist_eval _ _ 1 (by norm_num) (by norm_num)
  have hsc : handScale handYH = 1 := by
    unfold handScale
    rw [d9]
    exact max_eq_right (by norm_num)
  have d4 : dist (lmGet handYH 0) (lmGet handYH 4) = 1 := by
    rw [show lmGet handYH 0 = ⟨0, 0, 0⟩ from rfl, show lmGet handYH 4 = ⟨0.6, 0.8, 0⟩ from rfl]
    exact dist_eval _ _ 1 (by norm_num) (by norm_num)
  have d2 : dist (lmGet handYH 0) (lmGet handYH 2) = 0.5 := by
    rw [show lmGet handYH 0 = ⟨0, 0, 0⟩ from rfl, show lmGet handYH 2 = ⟨0.3, 0.4, 0⟩ from rfl]
    exact dist_eval _ _ 0.5 (by norm_num) (by norm_num)
  have d8 : dist (lmGet handYH 0) (lmGet handYH 8) = 0 := by
    rw [show lmGet handYH 0 = ⟨0, 0, 0⟩ from rfl, show lmGet handYH 8 = ⟨0, 0, 0⟩ from rfl]
    exact dist_eval _ _ 0 le_rfl (by norm_num)
  have d5 : dist (lmGet handYH 0) (lmGet handYH 5) = 0 := by
    rw [show lmGet handYH 0 = ⟨0, 0, 0⟩ from rfl, show lmGet handYH 5 = ⟨0, 0, 0⟩ from rfl]
    exact dist_eval _ _ 0 le_rfl (by norm_num)
  have d12 : dist (lmGet handYH 0) (lmGet handYH 12) = 0 := by
    rw [show lmGet handYH 0 = ⟨0, 0, 0⟩ from rfl, show lmGet handYH 12 = ⟨0, 0, 0⟩ from rfl]
    exact dist_eval _ _ 0 le_rfl (by norm_num)
  have d16 : dist (lmGet handYH 0) (lmGet handYH 16) = 0 := by
    rw [show lmGet handYH 0 = ⟨0, 0, 0⟩ from rfl, show lmGet handYH 16 = ⟨0, 0, 0⟩ from rfl]
    exact dist_eval _ _ 0 le_rfl (by norm_num)
  have d13 : dist (lmGet handYH 0) (lmGet handYH 13) = 0 := by
    rw [show lmGet handYH 0 = ⟨0, 0, 0⟩ from rfl, show lmGet handYH 13 = ⟨0, 0, 0⟩ from rfl]
    exact dist_eval _ _ 0 le_rfl (by norm_num)
  have d20 : dist (lmGet handYH 0) (lmGet handYH 20) = 1.5 := by
    rw [show lmGet handYH 0 = ⟨0, 0, 0⟩ from rfl, show lmGet handYH 20 = ⟨-1.5, 0, 0⟩ from rfl]
    exact dist_eval _ _ 1.5 (by norm_num) (by norm_num)
  have d17 : dist (lmGet handYH 0) (lmGet handYH 17) = 0.5 := by
    rw [show lmGet handYH 0 = ⟨0, 0, 0⟩ from rfl, show lmGet handYH 17 = ⟨-0.5, 0, 0⟩ from rfl]
    exact dist_eval _ _ 0.5 (by norm_num) (by norm_num)
  unfold fingerStates
  rw [isExtended_true handYH 4 2 1.30 (by rw [hsc, d4, d2]; norm_num),
    isExtended_false handYH 8 5 1.60 (by rw [hsc, d8, d5]; norm_num),
    isExtended_false handYH 12 9 1.60 (by rw [hsc, d12, d9]; norm_num),
    isExtended_false handYH 16 13 1.55 (by rw [hsc, d16, d13]; norm_num),
    isExtended_true handYH 20 17 1.45 (by rw [hsc, d20, d17]; norm_num)]

theorem fs_handMID : fingerStates handMID = ⟨false, false, true, false, false⟩ := by
  have d9 : dist (lmGet handMID 0) (lmGet handMID 9) = 1 := by
    rw [show lmGet handMID 0 = ⟨0, 0, 0⟩ from rfl, show lmGet handMID 9 = ⟨0, -1, 0⟩ from rfl]
    exact dist_eval _ _ 1 (by norm_num) (by norm_num)
  have hsc : handScale handMID = 1 := by
    unfold handScale
    rw [d9]
    exact max_eq_right (by norm_num)
  have d4 : dist (lmGet handMID 0) (lmGet handMID 4) = 0 := by
    rw [show lmGet handMID 0 = ⟨0, 0, 0⟩ from rfl, show lmGet handMID 4 = ⟨0, 0, 0⟩ from rfl]
    exact dist_eval _ _ 0 le_rfl (by norm_num)
  have d2 : dist (lmGet handMID 0) (lmGet handMID 2) = 0 := by
    rw [show lmGet handMID 0 = ⟨0, 0, 0⟩ from rfl, show lmGet handMID 2 = ⟨0, 0, 0⟩ from rfl]
    exact dist_eval _ _ 0 le_rfl (by norm_num)
  have d8 : dist (lmGet handMID 0) (lmGet handMID 8) = 0 := by
    rw [show lmGet handMID 0 = ⟨0, 0, 0⟩ from rfl, show lmGet handMID 8 = ⟨0, 0, 0⟩ from rfl]
    exact dist_eval _ _ 0 le_rfl (by norm_num)
  have d5 : dist (lmGet handMID 0) (lmGet handMID 5) = 0 := by
    rw [show lmGet handMID 0 = ⟨0, 0, 0⟩ from rfl, show lmGet handMID 5 = ⟨0, 0, 0⟩ from rfl]
    exact dist_eval _ _ 0 le_rfl (by norm_num)
  have d12 : dist (lmGet handMID 0) (lmGet handMID 12) = 2 := by
    rw [show lmGet handMID 0 = ⟨0, 0, 0⟩ from rfl, show lmGet handMID 12 = ⟨0, -2, 0⟩ from rfl]
    exact dist_eval _ _ 2 (by norm_num) (by norm_num)
  have d16 : dist (lmGet handMID 0) (lmGet handMID 16) = 0 := by
    rw [show lmGet handMID 0 = ⟨0, 0, 0⟩ from rfl, show lmGet handMID 16 = ⟨0, 0, 0⟩ from rfl]
    exact dist_eval _ _ 0 le_rfl (by norm_num)
  have d13 : dist (lmGet handMID 0) (lmGet handMID 13) = 0 := by
    rw [show lmGet handMID 0 = ⟨0, 0, 0⟩ from rfl, show lmGet handMID 13 = ⟨0, 0, 0⟩ from rfl]
    exact dist_eval _ _ 0 le_rfl (by norm_num)
  have d20 : dist (lmGet handMID 0) (lmGet handMID 20) = 0 := by
    rw [show lmGet handMID 0 = ⟨0, 0, 0⟩ from rfl, show lmGet handMID 20 = ⟨0, 0, 0⟩ from rfl]
    exact dist_eval _ _ 0 le_rfl (by norm_num)
  have d17 : dist (lmGet handMID 0) (lmGet handMID 17) = 0 := by
    rw [show lmGet handMID 0 = ⟨0, 0, 0⟩ from rfl, show lmGet handMID 17 = ⟨0, 0, 0⟩ from rfl]
    exact dist_eval _ _ 0 le_rfl (by norm_num)
  unfold fingerStates
  rw [isExtended_false handMID 4 2 1.30 (by rw [hsc, d4, d2]; norm_num),
    isExtended_false handMID 8 5 1.60 (by rw [hsc, d8, d5]; norm_num),
    isExtended_true handMID 12 9 1.60 (by rw [hsc, d12, d9]; norm_num),
    isExtended_false handMID 16 13 1.55 (by rw [hsc, d16, d13]; norm_num),
    isExtended_false handMID 20 17 1.45 (by rw [hsc, d20, d17]; norm_num)]

theorem classify_handMID : classify handMID = none :=
  classify_noMatch (by simp [handMID]) fs_handMID

/-- The five-way cluster branch only ever emits O, EAT, HOT or C, always
with the top candidate's score. -/
theorem resolveRules_cluster (top : Candidate) (lm : List Pt)
    (hmem : top.name = "C" ∨ top.name = "O" ∨ top.name = "EAT" ∨ top.name = "HOT"
      ∨ top.name = "DRINK") :
    resolveRules top lm = some ⟨"O", top.score⟩
    ∨ resolveRules top lm = some ⟨"EAT", top.score⟩
    ∨ resolveRules top lm = some ⟨"HOT", top.score⟩
    ∨ resolveRules top lm = some ⟨"C", top.score⟩ := by
  have hA : ¬(top.name = "A" ∨ top.name = "S") := by
    rcases hmem with h | h | h | h | h <;> rw [h] <;> decide
  have hM : ¬(top.name = "M" ∨ top.name = "N" ∨ top.name = "S" ∨ top.name = "T") := by
    rcases hmem with h | h | h | h | h <;> rw [h] <;> decide
  have hU : ¬(top.name = "U" ∨ top.name = "R") := by
    rcases hmem with h | h | h | h | h <;> rw [h] <;> decide
  have hV : ¬(top.name = "V" ∨ top.name = "PEACE") := by
    rcases hmem with h | h | h | h | h <;> rw [h] <;> decide
  have hF : ¬(top.name = "F" ∨ top.name = "OK") := by
    rcases hmem with h | h | h | h | h <;> rw [h] <;> decide
  have hG : ¬(top.name = "GOOD" ∨ top.name = "THANKS") := by
    rcases hmem with h | h | h | h | h <;> rw [h] <;> decide
  have hB : ¬(top.name = "BAD" ∨ top.name = "PLEASE" ∨ top.name = "WAIT") := by
    rcases hmem with h | h | h | h | h <;> rw [h] <;> decide
  simp only [resolveRules]
  rw [if_neg hA, if_neg hM, if_neg hU, if_neg hV, if_neg hF, if_neg hG, if_neg hB,
    if_pos hmem]
  split
  · exact Or.inl rfl
  · split
    · exact Or.inr (Or.inl rfl)
    · split
      · exact Or.inr (Or.inr (Or.inl rfl))
      · exact Or.inr (Or.inr (Or.inr rfl))

/-- Evaluation of resolve on the middle-only hand with top candidate C:
the geometric opinion is none, so the cluster rules fire; the zero
index-tip-to-thumb-tip spread selects O. -/
theorem resolve_handMID : resolve [{ name := "C", score := 7 }] handMID = some ⟨"O", 7⟩ := by
  have hsc : handScale handMID = 1 := by
    unfold handScale
    rw [show lmGet handMID 0 = ⟨0, 0, 0⟩ from rfl, show lmGet handMID 9 = ⟨0, -1, 0⟩ from rfl]
    rw [dist_eval _ _ 1 (by norm_num) (by norm_num)]
    exact max_eq_right (by norm_num)
  unfold resolve
  rw [if_neg (by simp), if_neg (by simp [handMID])]
  simp only [List.headD_cons, classify_handMID, Option.elim_none]
  simp only [resolveRules]
  rw [if_neg (by decide), if_neg (by decide), if_neg (by decide), if_neg (by decide),
    if_neg (by decide), if_neg (by decide), if_neg (by decide), if_pos (by decide)]
  rw [if_pos ?hpos]
  case hpos =>
    rw [show lmGet handMID 8 = ⟨0, 0, 0⟩ from rfl, show lmGet handMID 4 = ⟨0, 0, 0⟩ from rfl]
    rw [dist_eval _ _ 0 le_rfl (by norm_num), hsc]
    norm_num

/-! ## Claim theorems for the geometric components -/

/-- Claim C1: when the geometric opinion matches the top bank candidate's
name with confidence above 0.80, resolve returns the bank's name with the
score boosted by ×1.12, capped at 10. -/
theorem claim_C1 (c0 : Candidate) (rest : List Candidate) (lm : List Pt) (g : GeoRes)
    (h21 : lm.length = 21) (hcl : classify lm = some g) (hname : g.name = c0.name)
    (hconf : g.confidence > 0.80) :
    resolve (c0 :: rest) lm = some ⟨c0.name, min 10 (c0.score * 1.12)⟩ := by
  unfold resolve
  rw [if_neg (by simp), if_neg (by simp [h21])]
  simp only [List.headD_cons, hcl, Option.elim_some]
  rw [if_pos ⟨hname, hconf⟩]

/-- Witness for C1: the STOP hand (geometric confidence 0.85) agreeing with
bank top candidate STOP at score 8.0 yields score 8.96. -/
theorem claim_C1_witness :
    resolve [{ name := "STOP", score := 8 }] handSTOP = some ⟨"STOP", 8.96⟩ := by
  rw [claim_C1 { name := "STOP", score := 8 } [] handSTOP ⟨"STOP", 0.85⟩
    (by simp [handSTOP]) classify_handSTOP rfl (by norm_num)]
  rw [show min (10 : ℝ) ((8 : ℝ) * 1.12) = 8.96 from by
    rw [show (8 : ℝ) * 1.12 = 8.96 by norm_num]
    exact min_eq_right (by norm_num)]

/-- Claim C10: when the geometric opinion disagrees with the top candidate's
name and has confidence above 0.87, resolve returns the geometric name with
score confidence × 10; the bank score (a free variable here) has no
influence on the result. -/
theorem claim_C10 (nm : String) (s : ℝ) (rest : List Candidate) (lm : List Pt) (g : GeoRes)
    (h21 : lm.length = 21) (hcl : classify lm = some g)
    (hconf : g.confidence > 0.87) (hdiff : g.name ≠ nm) :
    resolve ({ name := nm, score := s } :: rest) lm = some ⟨g.name, g.confidence * 10⟩ := by
  unfold resolve
  rw [if_neg (by simp), if_neg (by simp [h21])]
  simp only [List.headD_cons, hcl, Option.elim_some]
  rw [if_neg (fun hand => hdiff hand.1), if_pos ⟨hconf, hdiff⟩]

/-- Witness for C10: the thumbs-up hand (confidence 0.95) overrides bank top
candidate A, yielding score 9.5 whatever the bank score was. -/
theorem claim_C10_witness :
    resolve [{ name := "A", score := 7 }] handTU = some ⟨"THUMBS UP", 9.5⟩ := by
  rw [claim_C10 "A" 7 [] handTU ⟨"THUMBS UP", 0.95⟩ (by simp [handTU]) classify_handTU
    (by norm_num) (by decide)]
  norm_num

/-- Claim C4 (amended): classify and resolve return none for an absent hand
or one with fewer than 21 landmarks; hands with more than 21 landmarks are
not rejected (see the counterexample). -/
theorem claim_C4 :
    (∀ lm : List Pt, lm.length < 21 →
      classify lm = none ∧ ∀ cands, resolve cands lm = none)
    ∧ classifyOpt none = none
    ∧ ∀ cands, resolveOpt cands none = none := by
  refine ⟨?_, rfl, fun cands => rfl⟩
  intro lm hlm
  refine ⟨?_, ?_⟩
  · unfold classify
    rw [if_pos hlm]
  · intro cands
    unfold resolve
    by_cases hc : cands.length = 0
    · rw [if_pos hc]
    · rw [if_neg hc, if_pos hlm]

/-- Counterexample for C4 as frozen: a 22-landmark hand is not rejected —
classify returns a value rather than none. -/
theorem claim_C4_cex : handTU22.length ≠ 21 ∧ classify handTU22 ≠ none := by
  refine ⟨by simp [handTU22, handTU], ?_⟩
  rw [classify_handTU22]
  simp

/-- Witness for C4 at the empty hand. -/
theorem claim_C4_witness :
    classify ([] : List Pt) = none ∧ resolve [] ([] : List Pt) = none := by
  have h := claim_C4.1 [] (by simp)
  exact ⟨h.1, h.2 []⟩

/-- Claim C5 (amended): on a 21-landmark thumb+index hand, an angle above
58° at the thumb base (e.g. 70°) yields L at 0.90; an angle not above 58°
(e.g. 40°) makes the right-angle branch defer, and classify returns D
(confidence 0.84 or 0.72 by the thumb-to-middle-tip test), not none. -/
theorem claim_C5 (lm : List Pt) (h21 : lm.length = 21)
    (hfs : fingerStates lm = ⟨true, true, false, false, false⟩) :
    (angleDeg (lmGet lm 4) (lmGet lm 2) (lmGet lm 5) > 58 →
      classify lm = some ⟨"L", 0.90⟩)
    ∧ (¬ (angleDeg (lmGet lm 4) (lmGet lm 2) (lmGet lm 5) > 58) →
        classify lm = some ⟨"D",
          if dist (lmGet lm 4) (lmGet lm 12) / handScale lm < 0.6 then 0.84 else 0.72⟩
        ∧ classify lm ≠ none) := by
  constructor
  · intro h
    exact classify_L (by simp [h21]) hfs h
  · intro h
    refine ⟨classify_D (by simp [h21]) hfs h, ?_⟩
    rw [classify_D (by simp [h21]) hfs h]
    simp

/-- Counterexample for C5 as frozen: at thumb-base angle exactly 40° with
thumb+index extended, classify returns D at 0.72, not none. -/
theorem claim_C5_cex :
    fingerStates hand40 = ⟨true, true, false, false, false⟩
    ∧ angleDeg (lmGet hand40 4) (lmGet hand40 2) (lmGet hand40 5) = 40
    ∧ classify hand40 = some ⟨"D", 0.72⟩
    ∧ classify hand40 ≠ none := by
  refine ⟨fs_hand40, angle_hand40, classify_hand40, ?_⟩
  rw [classify_hand40]
  simp

/-- Witness for C5: the 90° hand gets L at 0.90; the 40° hand is not
deferred. -/
theorem claim_C5_witness :
    classify handL = some ⟨"L", 0.90⟩ ∧ classify hand40 ≠ none := by
  refine ⟨(claim_C5 handL (by simp [handL]) fs_handL).1 (by rw [angle_handL]; norm_num), ?_⟩
  exact ((claim_C5 hand40 (by simp [hand40]) fs_hand40).2 (by rw [angle_hand40]; norm_num)).2

/-- Claim C6: when the top candidate is one of C, O, EAT, HOT, DRINK and
neither geometric rule fires, resolve emits a name among O, EAT, HOT, C
with the top score passed through; DRINK is never produced. -/
theorem claim_C6 (c0 : Candidate) (rest : List Candidate) (lm : List Pt)
    (h21 : lm.length = 21)
    (hmem : c0.name = "C" ∨ c0.name = "O" ∨ c0.name = "EAT" ∨ c0.name = "HOT"
      ∨ c0.name = "DRINK")
    (hno : ∀ g, classify lm = some g →
      ¬(g.name = c0.name ∧ g.confidence > 0.80) ∧ ¬(g.confidence > 0.87 ∧ g.name ≠ c0.name)) :
    (resolve (c0 :: rest) lm).isSome = true
    ∧ ∀ r, resolve (c0 :: rest) lm = some r →
        (r.name = "O" ∨ r.name = "EAT" ∨ r.name = "HOT" ∨ r.name = "C")
        ∧ r.name ≠ "DRINK" ∧ r.score = c0.score := by
  have hres : resolve (c0 :: rest) lm = resolveRules c0 lm := by
    unfold resolve
    rw [if_neg (by simp), if_neg (by simp [h21])]
    simp only [List.headD_cons]
    cases hcl : classify lm with
    | none => simp only [Option.elim_none]
    | some g =>
        simp only [Option.elim_some]
        rw [if_neg (hno g hcl).1, if_neg (hno g hcl).2]
  rcases resolveRules_cluster c0 lm hmem with h4 | h4 | h4 | h4 <;>
    rw [hres, h4] <;>
    exact ⟨rfl, fun r hr => by
      have h5 := Option.some_inj.mp hr
      subst h5
      simp⟩

/-- Witness for C6: top candidate C on the middle-only hand (geometric
opinion none) resolves to O with the score passed through. -/
theorem claim_C6_witness :
    (resolve [{ name := "C", score := 7 }] handMID).isSome = true
    ∧ (({ name := "O", score := 7 } : Resolution).name = "O"
        ∨ ({ name := "O", score := 7 } : Resolution).name = "EAT"
        ∨ ({ name := "O", score := 7 } : Resolution).name = "HOT"
        ∨ ({ name := "O", score := 7 } : Resolution).name = "C")
    ∧ ({ name := "O", score := 7 } : Resolution).name ≠ "DRINK"
    ∧ ({ name := "O", score := 7 } : Resolution).score
        = ({ name := "C", score := 7 } : Candidate).score := by
  have h := claim_C6 { name := "C", score := 7 } [] handMID (by simp [handMID])
    (Or.inl rfl)
    (by
      intro g hg
      rw [classify_handMID] at hg
      exact absurd hg (by simp))
  have h2 := h.2 { name := "O", score := 7 } resolve_handMID
  exact ⟨h.1, h2.1, h2.2.1, h2.2.2⟩

/-- Claim C7 (amended): every 21-landmark thumb+pinky-only hand classifies
as Y at 0.88; the CALL ME branch behind it is unreachable, whatever the
pinky orientation. -/
theorem claim_C7 (lm : List Pt) (h21 : lm.length = 21)
    (hfs : fingerStates lm = ⟨true, false, false, false, true⟩) :
    classify lm = some ⟨"Y", 0.88⟩ ∧ classify lm ≠ some ⟨"CALL ME", 0.85⟩ := by
  have h := classify_Y (by simp [h21]) hfs
  refine ⟨h, ?_⟩
  rw [h]
  simp

/-- Counterexample for C7 as frozen: a thumb+pinky hand with a horizontal
pinky vector still returns Y at 0.88, not CALL ME at 0.85. -/
theorem claim_C7_cex :
    fingerStates handYH = ⟨true, false, false, false, true⟩
    ∧ |(lmGet handYH 20).x - (lmGet handYH 17).x|
        > |(lmGet handYH 20).y - (lmGet handYH 17).y| * 1.4
    ∧ classify handYH = some ⟨"Y", 0.88⟩
    ∧ classify handYH ≠ some ⟨"CALL ME", 0.85⟩ := by
  have hcl := classify_Y (by simp [handYH]) fs_handYH
  refine ⟨fs_handYH, ?_, hcl, by rw [hcl]; simp⟩
  rw [show lmGet handYH 20 = ⟨-1.5, 0, 0⟩ from rfl, show lmGet handYH 17 = ⟨-0.5, 0, 0⟩ from rfl]
  norm_num

/-- Witness for C7 at the horizontal-pinky hand. -/
theorem claim_C7_witness :
    classify handYH = some ⟨"Y", 0.88⟩ ∧ classify handYH ≠ some ⟨"CALL ME", 0.85⟩ :=
  claim_C7 handYH (by simp [handYH]) fs_handYH

end SignBridge
